import Mathlib

/-!
# Verification of the usb-u2 USB device stack (src/usb-u2.c)

Shallow embedding of the protocol core of `usb-u2.c`: the device state
machine, the endpoint-0 control-transfer engine (`usb_u2_control_in`,
`usb_u2_control_out`), the standard-request dispatcher (`handle_ctrl`),
the bus-reset handler (`ISR(USB_GEN_vect)`), the endpoint configurator
(`usb_u2_configure_endpoint`) and the initialization routine
(`usb_u2_init`).

Hardware interaction is modelled explicitly: every register write, FIFO
byte transfer and callback invocation is recorded as an event in a trace
(`Ev` for the control path, `REv` for initialization).  Busy-waits on
host-paced hardware flags are modelled by host oracles (`HostEv`,
`InHost`, `OutHost`) that decide, at each loop iteration, how the
hardware flags were observed.  Machine integers are `Nat` with explicit
`% 2^w` where the C code truncates.
-/

namespace UsbU2

/-- Device states, `USB_U2_STATE_*` (kept in the `state` global of the C
code). -/
inductive DState where
  | default
  | address
  | configured
deriving DecidableEq, Repr

/-- Modelled from the spec: the constants of the missing public header
`usb-u2.h` (request-type bitfield masks, standard request codes and
descriptor types).  Per the spec (§6) the wire format is "bit-exact per
the USB 2.0 specification", so these carry the standard USB 2.0 values:
`bmRequestType` is direction (bit 7), type (bits 6:5), recipient
(bits 4:0). -/
def USB_U2_REQ_DIR_MASK : Nat := 0x80

def USB_U2_REQ_DIR_HOST_TO_DEVICE : Nat := 0x00

def USB_U2_REQ_DIR_DEVICE_TO_HOST : Nat := 0x80

def USB_U2_REQ_TYPE_MASK : Nat := 0x60

def USB_U2_REQ_TYPE_STANDARD : Nat := 0x00

def USB_U2_REQ_TYPE_VENDOR : Nat := 0x40

def USB_U2_REQ_RCPT_MASK : Nat := 0x1f

def USB_U2_REQ_RCPT_DEVICE : Nat := 0x00

def USB_U2_REQ_RCPT_ENDPOINT : Nat := 0x02

def USB_U2_REQ_GET_STATUS : Nat := 0

def USB_U2_REQ_CLEAR_FEATURE : Nat := 1

def USB_U2_REQ_SET_FEATURE : Nat := 3

def USB_U2_REQ_SET_ADDRESS : Nat := 5

def USB_U2_REQ_GET_DESCRIPTOR : Nat := 6

def USB_U2_REQ_SET_DESCRIPTOR : Nat := 7

def USB_U2_REQ_GET_CONFIGURATION : Nat := 8

def USB_U2_REQ_SET_CONFIGURATION : Nat := 9

def USB_U2_REQ_GET_INTERFACE : Nat := 10

def USB_U2_REQ_SET_INTERFACE : Nat := 11

def USB_U2_REQ_SYNCH_FRAME : Nat := 12

def USB_U2_DESCR_TYPE_DEVICE : Nat := 1

def USB_U2_DESCR_TYPE_CONFIGURATION : Nat := 2

def USB_U2_DESCR_TYPE_STRING : Nat := 3

/-- Modelled from the spec: the "reserved sentinel index" for the
internally generated serial-number string (declared in the missing
header `usb-u2.h`).  Only its value as a distinguished nonzero byte
matters to the code, which compares `(uint8_t) req.wValue` against it. -/
def USB_U2_DESCR_STR_IDX_SERIAL_INTERNAL : Nat := 0xff

/-- The 8-byte setup packet, `usb_u2_control_request_t` (global `req`).
Field widths: `bmRequestType`, `bRequest` are bytes; `wValue`, `wIndex`,
`wLength` are 16-bit words. -/
structure Req where
  bmRequestType : Nat
  bRequest : Nat
  wValue : Nat
  wIndex : Nat
  wLength : Nat
deriving DecidableEq, Repr

/-- The mutable device state of the C core: the globals `state`,
`config`, `epmax`, `ep0size`, the hardware address register `UDADDR`
(7-bit address plus the `ADDEN` enable bit) and the RAM word buffer
`internal_serial`. -/
structure Dev where
  dstate : DState
  config : Nat
  epmax : Nat
  ep0size : Nat
  udaddr : Nat
  adden : Bool
  serial : List Nat
deriving DecidableEq, Repr

/-- How the host-paced hardware flags were observed at one iteration of
a data-stage `while` loop of the transfer engine:
* `cont`: the ready flag (`TXINI`/`RXOUTI`) came up with no early
  termination flag (`NAKOUTI`/`NAKINI`); a chunk is transferred and
  committed.
* `nakBefore`: the early-termination flag was already set at the outer
  `while` condition; the loop exits before touching the FIFO.
* `nakWait`: the early-termination flag came up during the inner wait;
  the C code still runs the byte-copy `for` loop (the FIFO is touched)
  but skips the commit (`TXINI`/`RXOUTI` clear) and then exits. -/
inductive HostEv where
  | cont
  | nakBefore
  | nakWait
deriving DecidableEq, Repr

/-- Hardware-effect events of the control path (register writes, FIFO
transfers, callback invocations). -/
inductive Ev where
  | selectEp (n : Nat)
  | readSetup
  | ackSetup
  | fifoWrite (n : Nat)
  | sendIN (n : Nat)
  | fifoRead (n : Nat)
  | ackOUT
  | ackNAKOUT
  | ackNAKIN
  | setAddr (a : Nat)
  | enableAddr
  | vendorCallback
  | configureEndpointsCallback (c : Nat)
  | epConfigured (num : Nat) (dirIn : Bool) (attr : Nat) (sizeClass : Nat)
  | stallEp0
deriving DecidableEq, Repr

/-- Result of a data-stage loop: the chunks moved through the FIFO
(size, and whether the packet was committed by clearing the ready flag)
and whether the early-termination flag was set when the loop exited. -/
structure DataRun where
  chunks : List (Nat × Bool)
  nak : Bool
deriving DecidableEq, Repr

/-- The shared shape of the two data-stage `while` loops
(`usb-u2.c:127-135` and `usb-u2.c:166-174`): while bytes remain and the
early-termination flag is clear, wait for readiness, move
`min eps len` bytes through the FIFO, and commit unless termination was
signalled during the wait.  `fuel` bounds the recursion; when
`eps > 0`, `fuel = len` is enough (the C loop does not terminate when
`eps = 0` and `len > 0`). -/
def dataStage (eps : Nat) (host : Nat → HostEv) : Nat → Nat → Nat → DataRun
  | 0, _, _ => ⟨[], false⟩
  | fuel + 1, k, len =>
    if len = 0 then ⟨[], false⟩
    else
      match host k with
      | HostEv.nakBefore => ⟨[], true⟩
      | HostEv.nakWait => ⟨[(min eps len, false)], true⟩
      | HostEv.cont =>
        let r := dataStage eps host fuel (k + 1) (len - min eps len)
        ⟨(min eps len, true) :: r.chunks, r.nak⟩

/-- Host oracle for `usb_u2_control_in`: the per-iteration flag
observations, whether `NAKOUTI` was observed set at the zero-length
packet guard (`usb-u2.c:137`), and whether `RXOUTI` was observed set
after the status stage (`usb-u2.c:147`). -/
structure InHost where
  ev : Nat → HostEv
  nakAtZlp : Bool
  rxoutAtEnd : Bool

/-- Host oracle for `usb_u2_control_out`: the per-iteration flag
observations and whether `TXINI` was observed set at the early-return
check after consuming `NAKINI` (`usb-u2.c:181`). -/
structure OutHost where
  ev : Nat → HostEv
  txiniAfterNak : Bool

/-- FIFO events of a list of IN data chunks: each chunk writes its bytes
to the FIFO; a committed chunk additionally clears `TXINI`, sending the
packet. -/
def chunkEventsIn : List (Nat × Bool) → List Ev
  | [] => []
  | (n, committed) :: rest =>
    Ev.fifoWrite n :: (if committed then [Ev.sendIN n] else []) ++ chunkEventsIn rest

/-- FIFO events of a list of OUT data chunks: each chunk reads its bytes
from the FIFO; a committed chunk additionally clears `RXOUTI`, releasing
the packet. -/
def chunkEventsOut : List (Nat × Bool) → List Ev
  | [] => []
  | (n, committed) :: rest =>
    Ev.fifoRead n :: (if committed then [Ev.ackOUT] else []) ++ chunkEventsOut rest

/-- `usb_u2_control_in` (`usb-u2.c:109-149`) as a trace of hardware
effects.  `rxstpi` is the `RXSTPI` flag on entry; when clear the
function returns immediately with no effect.  Otherwise it acks the
setup stage, computes `with_zlp` from the *unclamped* length, clamps
`len` to `req.wLength`, streams the data stage, emits the zero-length
packet when due and the host has not terminated early, and runs the
status stage (consume `NAKOUTI`, then ack a stray `RXOUTI`). -/
def usb_u2_control_in (rxstpi : Bool) (wLength len eps : Nat) (h : InHost) : List Ev :=
  if !rxstpi then []
  else
    let with_zlp := decide (wLength > len) && decide (len % eps = 0)
    let len' := min len wLength
    let r := dataStage eps h.ev len' 0 len'
    Ev.ackSetup ::
      chunkEventsIn r.chunks ++
      (if with_zlp && !(r.nak || h.nakAtZlp) then [Ev.sendIN 0] else []) ++
      [Ev.ackNAKOUT] ++
      (if h.rxoutAtEnd then [Ev.ackOUT] else [])

/-- `usb_u2_control_out` (`usb-u2.c:152-188`) as a trace of hardware
effects.  When `RXSTPI` is clear it returns immediately with no effect.
Otherwise it acks the setup stage, clamps `len` to `req.wLength`,
streams the data stage, and runs the status stage: if there was a data
stage it consumes `NAKINI` and returns early when `TXINI` is not yet
set; otherwise (and when `TXINI` was set) it sends the zero-length IN
status acknowledgment. -/
def usb_u2_control_out (rxstpi : Bool) (wLength len eps : Nat) (h : OutHost) : List Ev :=
  if !rxstpi then []
  else
    let len' := min len wLength
    let with_data := decide (len' > 0)
    let r := dataStage eps h.ev len' 0 len'
    Ev.ackSetup ::
      chunkEventsOut r.chunks ++
      (if with_data then
        Ev.ackNAKIN :: (if h.txiniAfterNak then [Ev.sendIN 0] else [])
      else [Ev.sendIN 0])

/-- Bytes an event writes into the endpoint FIFO. -/
def evWriteCount : Ev → Nat
  | Ev.fifoWrite n => n
  | _ => 0

/-- Bytes an event reads out of the endpoint FIFO. -/
def evReadCount : Ev → Nat
  | Ev.fifoRead n => n
  | _ => 0

/-- Total data-stage bytes a trace writes into the FIFO. -/
def fifoBytesWritten (t : List Ev) : Nat := (t.map evWriteCount).sum

/-- Total data-stage bytes a trace reads out of the FIFO. -/
def fifoBytesRead (t : List Ev) : Nat := (t.map evReadCount).sum

/-- The IN packets a trace commits on the bus (sizes, in order): every
`TXINI` clear after filling the FIFO with `n` bytes sends an `n`-byte
packet. -/
def inPackets (t : List Ev) : List Nat :=
  t.filterMap fun e =>
    match e with
    | Ev.sendIN n => some n
    | _ => none

/-- Low-then-high bytes of a 16-bit word, as laid out in AVR RAM
(little endian). -/
def wordBytes (w : Nat) : List Nat := [w % 256, w / 256 % 256]

/-- The byte image of a word buffer such as `internal_serial`, as seen
through the `(const uint8_t*)` casts of `handle_ctrl`. -/
def serialBytes (words : List Nat) : List Nat := words.flatMap wordBytes

/-- One hex nibble rendered as in `usb_u2_init` (`usb-u2.c:48-49`):
`n > 9 ? n - 10 + 'a' : n + '0'`. -/
def hexLower (n : Nat) : Nat := if n > 9 then n - 10 + 97 else n + 48

/-- The `internal_serial` word buffer after `usb_u2_init` filled it
(`usb-u2.c:31-33` and `usb-u2.c:46-50`): the header word
`(USB_U2_DESCR_TYPE_STRING << 8) | 42` followed, from index 1, by the
two hex nibbles of each boot-signature byte at addresses
`0x0e ≤ a < 0x18`.  `sig` is `boot_signature_byte_get`. -/
def serialWords (sig : Nat → Nat) : List Nat :=
  ((USB_U2_DESCR_TYPE_STRING <<< 8) ||| 42) ::
    (List.range 10).flatMap fun k =>
      let b := sig (0x0e + k) % 256
      [hexLower (b >>> 4), hexLower (b &&& 0xf)]

/-- Byte image of the `default_enus_lang` descriptor (`usb-u2.c:23-27`):
`{bLength = 4, bDescriptorType = STRING, wData = {0x0409}}`. -/
def default_enus_lang_bytes : List Nat := [4, USB_U2_DESCR_TYPE_STRING, 0x09, 0x04]

/-- The environment of `handle_ctrl`: the application callbacks (each
descriptor source as its byte image, `none` for a NULL pointer), the
presence of a vendor callback, the per-endpoint `STALLRQ` bits read by
`GET_STATUS`, and the host oracles of the transfer-engine calls the
handler makes. -/
structure Env where
  deviceDescr : Option (List Nat)
  configDescr : Nat → Option (List Nat)
  stringDescr : Nat → Nat → Option (List Nat)
  hasVendorCb : Bool
  epStallBit : Nat → Bool
  inHost : InHost
  outHost : OutHost

/-- The descriptor resolution of the `GET_DESCRIPTOR` branch
(`usb-u2.c:263-297`): dispatch on the descriptor type (high byte of
`wValue`) to the application callbacks; for strings, fall back by
string index (low byte of `wValue`) to the default language descriptor
or to the RAM-resident internal serial buffer.  Returns
`(bytes, len_offset, from_flash)`; `none` is a NULL `addr`, which
stalls. -/
def resolveDescriptor (env : Env) (d : Dev) (req : Req) : Option (List Nat × Nat × Bool) :=
  let t := req.wValue >>> 8
  if t = USB_U2_DESCR_TYPE_DEVICE then
    match env.deviceDescr with
    | some b => some (b, 0, true)
    | none => none
  else if t = USB_U2_DESCR_TYPE_CONFIGURATION then
    match env.configDescr d.config with
    | some b => some (b, 2, true)
    | none => none
  else if t = USB_U2_DESCR_TYPE_STRING then
    match env.stringDescr req.wValue req.wIndex with
    | some b => some (b, 0, true)
    | none =>
      if req.wValue % 256 = 0 then
        some (default_enus_lang_bytes, 0, true)
      else if req.wValue % 256 = USB_U2_DESCR_STR_IDX_SERIAL_INTERNAL then
        some (serialBytes d.serial, 0, false)
      else none
  else none

/-- The standard-request `switch` of `handle_ctrl` (`usb-u2.c:218-327`).
Returns the new device state, the events of the branch, and the
`RXSTPI` flag after the branch (`true` means no transfer operation
consumed the setup packet, so the shared fallthrough will stall).  The
request codes `CLEAR_FEATURE`, `SET_FEATURE`, `SET_DESCRIPTOR`,
`GET_CONFIGURATION`, `GET_INTERFACE`, `SET_INTERFACE`, `SYNCH_FRAME`
and unknown codes all `break` with no action, collapsed into the final
branch. -/
def handleStandard (env : Env) (d : Dev) (req : Req) : Dev × List Ev × Bool :=
  if req.bRequest = USB_U2_REQ_GET_STATUS then
    if req.bmRequestType &&& USB_U2_REQ_DIR_MASK = USB_U2_REQ_DIR_HOST_TO_DEVICE then
      (d, [], true)
    else if req.bmRequestType &&& USB_U2_REQ_RCPT_MASK = USB_U2_REQ_RCPT_ENDPOINT then
      let ep := req.wIndex &&& 0xf
      if ep ≥ 5 then (d, [], true)
      else
        (d, Ev.selectEp ep :: Ev.selectEp 0 ::
          usb_u2_control_in true req.wLength 2 d.ep0size env.inHost, false)
    else
      (d, usb_u2_control_in true req.wLength 2 d.ep0size env.inHost, false)
  else if req.bRequest = USB_U2_REQ_SET_ADDRESS then
    if req.bmRequestType &&& USB_U2_REQ_DIR_MASK = USB_U2_REQ_DIR_DEVICE_TO_HOST
        ∨ req.bmRequestType &&& USB_U2_REQ_RCPT_MASK ≠ USB_U2_REQ_RCPT_DEVICE
        ∨ d.dstate ≠ DState.default then
      (d, [], true)
    else
      ({ d with udaddr := req.wValue &&& 0x7f, adden := true, dstate := DState.address },
        Ev.setAddr (req.wValue &&& 0x7f) ::
          usb_u2_control_out true req.wLength 0 d.ep0size env.outHost ++ [Ev.enableAddr],
        false)
  else if req.bRequest = USB_U2_REQ_GET_DESCRIPTOR then
    if req.bmRequestType &&& USB_U2_REQ_DIR_MASK = USB_U2_REQ_DIR_HOST_TO_DEVICE
        ∨ req.bmRequestType &&& USB_U2_REQ_RCPT_MASK = USB_U2_REQ_RCPT_ENDPOINT then
      (d, [], true)
    else
      match resolveDescriptor env d req with
      | none => (d, [], true)
      | some (bytes, off, _) =>
        (d, usb_u2_control_in true req.wLength (bytes.getD off 0) d.ep0size env.inHost, false)
  else if req.bRequest = USB_U2_REQ_SET_CONFIGURATION then
    if req.bmRequestType &&& USB_U2_REQ_DIR_MASK = USB_U2_REQ_DIR_DEVICE_TO_HOST
        ∨ req.bmRequestType &&& USB_U2_REQ_RCPT_MASK ≠ USB_U2_REQ_RCPT_DEVICE
        ∨ d.dstate ≠ DState.address then
      (d, [], true)
    else
      -- `config = req.wValue;` is executed before the `config > 1` check
      -- (usb-u2.c:311-313), so the invalid value is stored before the stall.
      let d1 := { d with config := req.wValue % 256 }
      if d1.config > 1 then (d1, [], true)
      else
        ({ d1 with dstate := DState.configured },
          usb_u2_control_out true req.wLength 0 d.ep0size env.outHost ++
            [Ev.configureEndpointsCallback d1.config],
          false)
  else (d, [], true)

/-- The shared `_stall` fallthrough (`usb-u2.c:329-336`): if `RXSTPI` is
still set (no transfer operation consumed the setup packet), request a
stall and clear the flag. -/
def stallIfPending (rxstpi : Bool) : List Ev :=
  if rxstpi then [Ev.stallEp0] else []

/-- `handle_ctrl` (`usb-u2.c:191-336`): select endpoint 0, drain the
8-byte setup packet out of the FIFO (the `req` argument), classify the
request type (standard / vendor / other), run the standard `switch`,
and fall through to the `_stall` label, which re-selects endpoint 0 and
stalls when the setup packet was never consumed. -/
def handle_ctrl (env : Env) (d : Dev) (req : Req) : Dev × List Ev :=
  let t := req.bmRequestType &&& USB_U2_REQ_TYPE_MASK
  if t = USB_U2_REQ_TYPE_STANDARD then
    let r := handleStandard env d req
    (r.1, Ev.selectEp 0 :: Ev.readSetup :: r.2.1 ++ Ev.selectEp 0 :: stallIfPending r.2.2)
  else if t = USB_U2_REQ_TYPE_VENDOR then
    (d, Ev.selectEp 0 :: Ev.readSetup ::
      (if env.hasVendorCb then [Ev.vendorCallback] else []) ++
        Ev.selectEp 0 :: stallIfPending true)
  else
    (d, Ev.selectEp 0 :: Ev.readSetup :: Ev.selectEp 0 :: stallIfPending true)

/-- `ISR(USB_GEN_vect)` (`usb-u2.c:83-106`): on an end-of-reset event
(`EORSTI` set), ack the interrupt and re-query the device descriptor;
if it is NULL, return without touching the state; otherwise negotiate
`ep0size` from `bMaxPacketSize0` (byte 7 of the standard device
descriptor layout, read as a word and truncated to `uint8_t`),
re-enable endpoint 0 and reset `state`, `config` and `epmax`. -/
def isr_usb_gen (eorsti : Bool) (devDescr : Option (List Nat)) (d : Dev) : Dev :=
  if !eorsti then d
  else
    match devDescr with
    | none => d
    | some bytes =>
      { d with
        ep0size := bytes.getD 7 0 % 256
        dstate := DState.default
        config := 0
        epmax := 0 }

/-- `usb_u2_endpoint_descriptor_t` (declared in the missing header; the
standard USB endpoint descriptor fields the configurator reads). -/
structure EpDescr where
  bEndpointAddress : Nat
  bmAttributes : Nat
  wMaxPacketSize : Nat
deriving DecidableEq, Repr

/-- `usb_u2_configure_endpoint` (`usb-u2.c:339-360`): NULL descriptor is
a no-op; the endpoint number (low 4 bits of `bEndpointAddress`) must be
exactly `epmax + 1` or the call is a no-op; otherwise `epmax` is
incremented (`uint8_t` wrap) and the endpoint hardware is configured
(note the C code truncates `wMaxPacketSize` to `uint8_t` before the
size-class mapping). -/
def usb_u2_configure_endpoint (ep : Option EpDescr) (d : Dev) : Dev × List Ev :=
  match ep with
  | none => (d, [])
  | some e =>
    let epaddr := e.bEndpointAddress % 256
    let epnum := epaddr &&& 0xf
    if epnum ≠ d.epmax + 1 then (d, [])
    else
      let eps := e.wMaxPacketSize % 256
      let sizeClass := if eps ≤ 8 then 0 else if eps ≤ 16 then 1 else if eps ≤ 32 then 2 else 3
      ({ d with epmax := (d.epmax + 1) % 256 },
        [Ev.epConfigured epnum (epaddr &&& 0x80 ≠ 0) (e.bmAttributes % 256) sizeClass])

/-- The registers `usb_u2_init` writes (ATmega8/16/32u2). -/
inductive Reg where
  | REGCR
  | UDIEN
  | UDINT
  | USBCON
  | PLLCSR
  | UDCON
deriving DecidableEq, Repr

/-- Initialization effects: a register write, or the busy-wait for the
hardware-set `PLOCK` bit (`usb-u2.c:72`). -/
inductive REv where
  | write (r : Reg) (v : Nat)
  | waitPLOCK
deriving DecidableEq, Repr

/-- ATmega8/16/32u2 datasheet bit positions used by `usb_u2_init`. -/
def USBE : Nat := 7

def FRZCLK : Nat := 5

def EORSTE : Nat := 3

def DETACH : Nat := 0

def PLLE : Nat := 1

def PLLP0 : Nat := 2

/-- The state touched by `usb_u2_init`: the `state` global, the
`internal_serial` buffer, and the last-written values of the registers
(hardware-set read-only bits such as `PLOCK` are not part of the stored
values; the busy-wait on them is a trace event). -/
structure InitState where
  dstate : DState
  serial : List Nat
  regcr : Nat
  udien : Nat
  udint : Nat
  usbcon : Nat
  pllcsr : Nat
  udcon : Nat
deriving DecidableEq, Repr

/-- `usb_u2_init` (`usb-u2.c:36-80`): returns immediately when the
`state` global is not `USB_U2_STATE_DEFAULT`; otherwise loads the
serial-number buffer from the boot signature bytes, powers the
regulator, masks interrupts, enables the controller (transiently with
the clock frozen), starts the PLL (`fcpu16` selects the `F_CPU`
compile-time branch), waits for `PLOCK`, enables the end-of-reset
interrupt and attaches (`UDCON &= ~(1 << DETACH)`).  The body never
writes the `state` global, which therefore remains
`USB_U2_STATE_DEFAULT`. -/
def usb_u2_init (sig : Nat → Nat) (fcpu16 : Bool) (s : InitState) : InitState × List REv :=
  if s.dstate ≠ DState.default then (s, [])
  else
    let pll0 := if fcpu16 then 1 <<< PLLP0 else 0
    ({ s with
        serial := serialWords sig
        regcr := 0
        udien := 1 <<< EORSTE
        udint := 0
        usbcon := 1 <<< USBE
        pllcsr := pll0 ||| (1 <<< PLLE)
        udcon := s.udcon &&& (0xff ^^^ (1 <<< DETACH)) },
      [REv.write Reg.REGCR 0,
        REv.write Reg.UDIEN 0,
        REv.write Reg.UDINT 0,
        REv.write Reg.USBCON ((1 <<< USBE) ||| (1 <<< FRZCLK)),
        REv.write Reg.USBCON (1 <<< USBE),
        REv.write Reg.PLLCSR pll0,
        REv.write Reg.PLLCSR (pll0 ||| (1 <<< PLLE)),
        REv.waitPLOCK,
        REv.write Reg.UDIEN (1 <<< EORSTE),
        REv.write Reg.UDCON (s.udcon &&& (0xff ^^^ (1 <<< DETACH)))])

/-! ## Concrete fixtures used by witnesses and counterexamples -/

/-- A fully cooperative host for IN transfers: ready at every
iteration, no early NAK. -/
def contInHost : InHost := ⟨fun _ => HostEv.cont, false, false⟩

/-- A fully cooperative host for OUT transfers. -/
def contOutHost : OutHost := ⟨fun _ => HostEv.cont, true⟩

/-- An environment whose application callbacks supply nothing. -/
def envNone : Env :=
  ⟨none, fun _ => none, fun _ _ => none, false, fun _ => false, contInHost, contOutHost⟩

/-- A device sitting in the Address state, unconfigured. -/
def devAddress : Dev := ⟨DState.address, 0, 0, 64, 5, true, []⟩

/-- A freshly reset device in the Default state. -/
def devDefault : Dev := ⟨DState.default, 0, 0, 64, 0, false, []⟩

/-- A configured device with two endpoints up. -/
def devConfigured : Dev := ⟨DState.configured, 1, 2, 64, 9, true, []⟩

/-- A sample boot-signature read primitive. -/
def sigId : Nat → Nat := fun a => a % 256

/-- A device whose serial buffer was filled by `usb_u2_init` under
`sigId`. -/
def devSerial : Dev := ⟨DState.address, 0, 0, 64, 5, true, serialWords sigId⟩

/-- A `GET_DESCRIPTOR(STRING, internal-serial index)` setup packet. -/
def reqSerial : Req :=
  ⟨0x80, USB_U2_REQ_GET_DESCRIPTOR,
    (USB_U2_DESCR_TYPE_STRING <<< 8) ||| USB_U2_DESCR_STR_IDX_SERIAL_INTERNAL, 0, 255⟩

/-- Pre-initialization state: attached pull-up disabled bit set in
`UDCON`, everything else clear, device state Default. -/
def initState0 : InitState := ⟨DState.default, [], 0, 0, 0, 0, 0, 1⟩

/-- An `InitState` whose device state has progressed past Default. -/
def initStateAddr : InitState := ⟨DState.address, [], 0, 0, 0, 0, 0, 1⟩

/-- Lowercase hexadecimal digit characters, as byte values:
`'0'..'9'` or `'a'..'f'`. -/
def isLowerHexChar (c : Nat) : Prop := (48 ≤ c ∧ c ≤ 57) ∨ (97 ≤ c ∧ c ≤ 102)

instance (c : Nat) : Decidable (isLowerHexChar c) := by
  unfold isLowerHexChar
  infer_instance

/-! ## Helper lemmas -/

/-- The bytes moved by a data-stage loop never exceed the remaining
length, whatever the host does. -/
theorem dataStage_sum_le (eps : Nat) (host : Nat → HostEv) (fuel k len : Nat) :
    (((dataStage eps host fuel k len).chunks.map Prod.fst).sum) ≤ len := by
  induction fuel generalizing k len with
  | zero => simp [dataStage]
  | succ fuel ih =>
    by_cases h : len = 0
    · simp [dataStage, h]
    · cases hh : host k
      · have := ih (k + 1) (len - min eps len)
        simp only [dataStage, if_neg h, hh]
        simp only [List.map_cons, List.sum_cons]
        omega
      · simp [dataStage, h, hh]
      · simp only [dataStage, if_neg h, hh]
        simp

/-- `dataStage` with a fully cooperative host and an exact multiple of
the packet size: the whole length is moved in committed full packets. -/
theorem dataStage_all_cont (eps : Nat) (host : Nat → HostEv)
    (hc : ∀ k, host k = HostEv.cont) (h0 : 0 < eps) :
    ∀ m fuel k, eps * m ≤ fuel →
      dataStage eps host fuel k (eps * m) = ⟨List.replicate m (eps, true), false⟩ := by
  intro m
  induction m with
  | zero =>
    intro fuel k _
    cases fuel <;> simp [dataStage]
  | succ m ih =>
    intro fuel k hle
    have hmul : eps * (m + 1) = eps * m + eps := by ring
    have hpos : 0 < eps * (m + 1) := by positivity
    obtain ⟨fuel', rfl⟩ : ∃ f, fuel = f + 1 := by
      cases fuel
      · omega
      · exact ⟨_, rfl⟩
    have hmin : min eps (eps * (m + 1)) = eps := by
      have : eps ≤ eps * (m + 1) := Nat.le_mul_of_pos_right eps (by omega)
      omega
    have hrest : eps * (m + 1) - min eps (eps * (m + 1)) = eps * m := by omega
    have hne : eps * (m + 1) ≠ 0 := by omega
    simp only [dataStage, if_neg hne, hc k, hrest]
    rw [ih fuel' (k + 1) (by omega)]
    simp [List.replicate_succ, hmin]

/-- FIFO bytes written by the events of a list of IN chunks. -/
theorem fifoBytesWritten_chunkEventsIn (cs : List (Nat × Bool)) :
    fifoBytesWritten (chunkEventsIn cs) = (cs.map Prod.fst).sum := by
  induction cs with
  | nil => rfl
  | cons c rest ih =>
    obtain ⟨n, b⟩ := c
    cases b <;>
      simp_all [chunkEventsIn, fifoBytesWritten, evWriteCount]

/-- FIFO bytes read by the events of a list of OUT chunks. -/
theorem fifoBytesRead_chunkEventsOut (cs : List (Nat × Bool)) :
    fifoBytesRead (chunkEventsOut cs) = (cs.map Prod.fst).sum := by
  induction cs with
  | nil => rfl
  | cons c rest ih =>
    obtain ⟨n, b⟩ := c
    cases b <;>
      simp_all [chunkEventsOut, fifoBytesRead, evReadCount]

/-- The committed packets of a run of full committed chunks. -/
theorem inPackets_chunkEventsIn_replicate (m eps : Nat) :
    inPackets (chunkEventsIn (List.replicate m (eps, true))) = List.replicate m eps := by
  induction m with
  | zero => rfl
  | succ m ih =>
    simp [List.replicate_succ, chunkEventsIn, inPackets] at ih ⊢
    exact ih

/-- `usb_u2_control_out` of a zero-length transfer (for example the
status stage of `SET_ADDRESS` or `SET_CONFIGURATION`): ack the setup
stage and send the zero-length IN status acknowledgment. -/
theorem control_out_zero (wLength eps : Nat) (h : OutHost) :
    usb_u2_control_out true wLength 0 eps h = [Ev.ackSetup, Ev.sendIN 0] := by
  simp [usb_u2_control_out, dataStage, chunkEventsOut]

/-- `hexLower` of a nibble is a lowercase hexadecimal digit
character. -/
theorem hexLower_isLowerHex (n : Nat) (h : n ≤ 15) : isLowerHexChar (hexLower n) := by
  unfold hexLower isLowerHexChar
  split
  · right
    omega
  · left
    omega

/-! ## Claim theorems -/

/-- C9: `usb_u2_control_in` and `usb_u2_control_out` invoked while the
setup-received flag (`RXSTPI`) is clear return immediately with no
effect: their hardware-effect trace is empty, so no device state, FIFO
content or hardware flag is touched. -/
theorem control_ops_noop_without_setup (wLength len eps : Nat) (hIn : InHost) (hOut : OutHost) :
    usb_u2_control_in false wLength len eps hIn = [] ∧
    usb_u2_control_out false wLength len eps hOut = [] :=
  ⟨rfl, rfl⟩

/-- C10: `usb_u2_configure_endpoint` with a NULL descriptor pointer is a
no-op: it returns at once with the device state unchanged and an empty
hardware-effect trace, never inspecting the descriptor. -/
theorem configure_endpoint_null_noop (d : Dev) :
    usb_u2_configure_endpoint none d = (d, []) :=
  rfl

/-- C3: for every invocation of `usb_u2_control_in` and
`usb_u2_control_out` — any host behavior, any pending flag — the
data-stage bytes written to (resp. read from) the endpoint FIFO never
exceed `min len req.wLength`. -/
theorem control_transfer_bytes_le (rxstpi : Bool) (wLength len eps : Nat)
    (hIn : InHost) (hOut : OutHost) :
    fifoBytesWritten (usb_u2_control_in rxstpi wLength len eps hIn) ≤ min len wLength ∧
    fifoBytesRead (usb_u2_control_out rxstpi wLength len eps hOut) ≤ min len wLength := by
  constructor
  · cases rxstpi
    · simp [usb_u2_control_in, fifoBytesWritten]
    · have hsum := dataStage_sum_le eps hIn.ev (min len wLength) 0 (min len wLength)
      simp only [usb_u2_control_in, Bool.not_true, Bool.false_eq_true, if_false,
        fifoBytesWritten, List.map_cons, List.map_append, List.sum_cons, List.sum_append]
      rw [show (List.map evWriteCount (chunkEventsIn
          (dataStage eps hIn.ev (min len wLength) 0 (min len wLength)).chunks)).sum
        = fifoBytesWritten (chunkEventsIn
          (dataStage eps hIn.ev (min len wLength) 0 (min len wLength)).chunks) from rfl]
      rw [fifoBytesWritten_chunkEventsIn]
      have h1 : ∀ c : Bool, (List.map evWriteCount (if c then [Ev.sendIN 0] else [])).sum = 0 := by
        intro c; cases c <;> simp [evWriteCount]
      have h2 : ∀ c : Bool, (List.map evWriteCount (if c then [Ev.ackOUT] else [])).sum = 0 := by
        intro c; cases c <;> simp [evWriteCount]
      rw [h1, h2]
      simp [evWriteCount]
      omega
  · cases rxstpi
    · simp [usb_u2_control_out, fifoBytesRead]
    · have hsum := dataStage_sum_le eps hOut.ev (min len wLength) 0 (min len wLength)
      simp only [usb_u2_control_out, Bool.not_true, Bool.false_eq_true, if_false,
        fifoBytesRead, List.map_cons, List.map_append, List.sum_cons, List.sum_append]
      rw [show (List.map evReadCount (chunkEventsOut
          (dataStage eps hOut.ev (min len wLength) 0 (min len wLength)).chunks)).sum
        = fifoBytesRead (chunkEventsOut
          (dataStage eps hOut.ev (min len wLength) 0 (min len wLength)).chunks) from rfl]
      rw [fifoBytesRead_chunkEventsOut]
      have h1 : (List.map evReadCount
          (if decide (min len wLength > 0) = true then
            Ev.ackNAKIN :: (if hOut.txiniAfterNak then [Ev.sendIN 0] else [])
          else [Ev.sendIN 0])).sum = 0 := by
        rcases Decidable.em (min len wLength > 0) with hd | hd <;>
          cases hh : hOut.txiniAfterNak <;> simp [hd, evReadCount]
      rw [h1]
      simp [evReadCount]
      omega

/-- C2: a control IN transfer whose source length is a positive
multiple of the negotiated packet size and strictly smaller than the
host's requested `wLength`, with a host that never signals early
termination, commits the data as `len / eps` full packets followed by
exactly one zero-length packet. -/
theorem control_in_zlp (wLength len eps : Nat) (h : InHost)
    (hpos : 0 < len) (hdvd : eps ∣ len) (hlt : len < wLength)
    (hhost : ∀ k, h.ev k = HostEv.cont) (hzlp : h.nakAtZlp = false) :
    inPackets (usb_u2_control_in true wLength len eps h) =
      List.replicate (len / eps) eps ++ [0] ∧
    (inPackets (usb_u2_control_in true wLength len eps h)).count 0 = 1 := by
  have heps : 0 < eps := by
    rcases Nat.eq_zero_or_pos eps with rfl | hp
    · obtain ⟨m, rfl⟩ := hdvd
      simp at hpos
    · exact hp
  obtain ⟨m, rfl⟩ := hdvd
  have hm : eps * m / eps = m := Nat.mul_div_cancel_left m heps
  have hmin : min (eps * m) wLength = eps * m := by omega
  have hds := dataStage_all_cont eps h.ev hhost heps m (eps * m) 0 le_rfl
  have hwz : (decide (wLength > eps * m) && decide (eps * m % eps = 0)) = true := by
    simp [Nat.mul_mod_right]
    omega
  have htrace : usb_u2_control_in true wLength (eps * m) eps h =
      Ev.ackSetup :: chunkEventsIn (List.replicate m (eps, true)) ++ [Ev.sendIN 0] ++
        [Ev.ackNAKOUT] ++ (if h.rxoutAtEnd then [Ev.ackOUT] else []) := by
    simp only [usb_u2_control_in, Bool.not_true, Bool.false_eq_true, if_false, hmin, hds, hwz,
      hzlp]
    simp
  constructor
  · rw [htrace, hm]
    simp only [inPackets, List.filterMap_cons, List.filterMap_append]
    rw [show List.filterMap _ (chunkEventsIn (List.replicate m (eps, true)))
      = inPackets (chunkEventsIn (List.replicate m (eps, true))) from rfl]
    rw [inPackets_chunkEventsIn_replicate]
    cases hh : h.rxoutAtEnd <;> simp [inPackets]
  · rw [htrace]
    simp only [inPackets, List.filterMap_cons, List.filterMap_append]
    rw [show List.filterMap _ (chunkEventsIn (List.replicate m (eps, true)))
      = inPackets (chunkEventsIn (List.replicate m (eps, true))) from rfl]
    rw [inPackets_chunkEventsIn_replicate]
    have hne : eps ≠ 0 := by omega
    cases hh : h.rxoutAtEnd <;>
      simp [inPackets, List.count_append, List.count_replicate, hne]

/-- C2 witness: a 16-byte source with 8-byte packets and a 20-byte
request commits two full packets and exactly one zero-length packet. -/
theorem control_in_zlp_witness :
    0 < 16 ∧ (8 : Nat) ∣ 16 ∧ 16 < 20 ∧
    inPackets (usb_u2_control_in true 20 16 8 contInHost) =
      List.replicate (16 / 8) 8 ++ [0] :=
  ⟨by decide, by decide, by decide,
    (control_in_zlp 20 16 8 contInHost (by decide) (by decide) (by decide)
      (fun _ => rfl) rfl).1⟩

/-- C4: a valid `SET_ADDRESS` request (standard type, host-to-device,
recipient Device, state Default) produces exactly the trace that writes
the new address with `ADDEN` clear, completes the zero-data status
stage through `usb_u2_control_out` (the `sendIN 0` status
acknowledgment), and only then sets the `ADDEN` address-recognition
bit: every `ADDEN`-enable event comes strictly after every status-stage
acknowledgment event. -/
theorem set_address_adden_after_status (env : Env) (d : Dev) (req : Req)
    (htype : req.bmRequestType &&& USB_U2_REQ_TYPE_MASK = USB_U2_REQ_TYPE_STANDARD)
    (hreq : req.bRequest = USB_U2_REQ_SET_ADDRESS)
    (hdir : req.bmRequestType &&& USB_U2_REQ_DIR_MASK ≠ USB_U2_REQ_DIR_DEVICE_TO_HOST)
    (hrcpt : req.bmRequestType &&& USB_U2_REQ_RCPT_MASK = USB_U2_REQ_RCPT_DEVICE)
    (hstate : d.dstate = DState.default) :
    (handle_ctrl env d req).2 =
      [Ev.selectEp 0, Ev.readSetup, Ev.setAddr (req.wValue &&& 0x7f),
        Ev.ackSetup, Ev.sendIN 0, Ev.enableAddr, Ev.selectEp 0] ∧
    (∀ i j, (handle_ctrl env d req).2.get? i = some (Ev.sendIN 0) →
      (handle_ctrl env d req).2.get? j = some Ev.enableAddr → i < j) := by
  have h1 : USB_U2_REQ_SET_ADDRESS ≠ USB_U2_REQ_GET_STATUS := by decide
  have hguard : ¬(req.bmRequestType &&& USB_U2_REQ_DIR_MASK = USB_U2_REQ_DIR_DEVICE_TO_HOST
      ∨ req.bmRequestType &&& USB_U2_REQ_RCPT_MASK ≠ USB_U2_REQ_RCPT_DEVICE
      ∨ d.dstate ≠ DState.default) := by
    intro hcon
    rcases hcon with hc | hc | hc
    · exact hdir hc
    · exact hc hrcpt
    · exact hc hstate
  have hstd : handleStandard env d req =
      ({ d with udaddr := req.wValue &&& 0x7f, adden := true, dstate := DState.address },
        Ev.setAddr (req.wValue &&& 0x7f) ::
          usb_u2_control_out true req.wLength 0 d.ep0size env.outHost ++ [Ev.enableAddr],
        false) := by
    simp only [handleStandard]
    rw [hreq, if_neg h1, if_pos rfl, if_neg hguard]
  have htr : (handle_ctrl env d req).2 =
      [Ev.selectEp 0, Ev.readSetup, Ev.setAddr (req.wValue &&& 0x7f),
        Ev.ackSetup, Ev.sendIN 0, Ev.enableAddr, Ev.selectEp 0] := by
    simp only [handle_ctrl]
    rw [htype, if_pos rfl, hstd, control_out_zero]
    simp [stallIfPending]
  refine ⟨htr, ?_⟩
  intro i j hi hj
  rw [htr] at hi hj
  rcases j with _ | _ | _ | _ | _ | _ | _ | j <;>
    rcases i with _ | _ | _ | _ | _ | _ | _ | i <;>
    simp_all [List.get?]

/-- C4 witness: `SET_ADDRESS(7)` on a freshly reset device. -/
theorem set_address_adden_after_status_witness :
    devDefault.dstate = DState.default ∧
    (handle_ctrl envNone devDefault ⟨0, 5, 7, 0, 0⟩).2 =
      [Ev.selectEp 0, Ev.readSetup, Ev.setAddr 7,
        Ev.ackSetup, Ev.sendIN 0, Ev.enableAddr, Ev.selectEp 0] :=
  ⟨rfl,
    (set_address_adden_after_status envNone devDefault ⟨0, 5, 7, 0, 0⟩
      (by decide) (by decide) (by decide) (by decide) rfl).1⟩

/-- C1 (code bug): a `SET_CONFIGURATION` request with `wValue = 2` in
the Address state does stall, but `handle_ctrl` stores `wValue` into
`config` *before* the `config > 1` check (`usb-u2.c:311-313`), so the
stored active configuration value — later passed to
`usb_u2_config_descriptor_cb` — changes from 0 to 2, leaving the device
in a reachable state with `config ∉ {0, 1}`. -/
theorem set_configuration_invalid_value_stored :
    devAddress.config = 0 ∧
    (handle_ctrl envNone devAddress ⟨0, USB_U2_REQ_SET_CONFIGURATION, 2, 0, 0⟩).1.config = 2 ∧
    Ev.stallEp0 ∈ (handle_ctrl envNone devAddress ⟨0, USB_U2_REQ_SET_CONFIGURATION, 2, 0, 0⟩).2 ∧
    (handle_ctrl envNone devAddress
      ⟨0, USB_U2_REQ_SET_CONFIGURATION, 2, 0, 0⟩).1.dstate = DState.address ∧
    ¬((handle_ctrl envNone devAddress
      ⟨0, USB_U2_REQ_SET_CONFIGURATION, 2, 0, 0⟩).1.config ≤ 1) := by
  decide

/-- C5 counterexample: a bus-reset event arriving while the device
descriptor callback returns NULL leaves the prior state untouched —
here a Configured device with `config = 1` and `epmax = 2` stays that
way, refuting the unconditional "regardless of the prior device state,
the reset handler leaves Default/0/0". -/
theorem reset_null_descriptor_keeps_state :
    isr_usb_gen true none devConfigured = devConfigured ∧
    ¬((isr_usb_gen true none devConfigured).dstate = DState.default ∧
      (isr_usb_gen true none devConfigured).config = 0 ∧
      (isr_usb_gen true none devConfigured).epmax = 0) := by
  decide

/-- C5 (amended): for every bus-reset event for which the application's
device-descriptor callback returns a descriptor, the reset handler
leaves the device in state Default with `config = 0` and `epmax = 0`,
regardless of the prior device state. -/
theorem reset_event_returns_default (bytes : List Nat) (d : Dev) :
    (isr_usb_gen true (some bytes) d).dstate = DState.default ∧
    (isr_usb_gen true (some bytes) d).config = 0 ∧
    (isr_usb_gen true (some bytes) d).epmax = 0 := by
  simp [isr_usb_gen]

/-- C6: `usb_u2_configure_endpoint` with an endpoint number (low 4 bits
of `bEndpointAddress`) different from `epmax + 1` is a no-op — no
hardware effect, `epmax` unchanged — while an in-order call increases
`epmax` by exactly 1 and changes nothing else of the tracked state. -/
theorem configure_endpoint_strict_order (e : EpDescr) (d : Dev) :
    ((e.bEndpointAddress % 256) &&& 0xf ≠ d.epmax + 1 →
      usb_u2_configure_endpoint (some e) d = (d, [])) ∧
    ((e.bEndpointAddress % 256) &&& 0xf = d.epmax + 1 →
      (usb_u2_configure_endpoint (some e) d).1 = { d with epmax := d.epmax + 1 }) := by
  constructor
  · intro h
    simp [usb_u2_configure_endpoint, h]
  · intro h
    have h15 : (e.bEndpointAddress % 256) &&& 0xf ≤ 15 := Nat.and_le_right
    have hmod : (d.epmax + 1) % 256 = d.epmax + 1 := Nat.mod_eq_of_lt (by omega)
    simp [usb_u2_configure_endpoint, h, hmod]

/-- C6 witness: with `epmax = 0`, configuring endpoint 2 is rejected
with no state change, and configuring endpoint 1 (address `0x81`)
bumps `epmax` to 1. -/
theorem configure_endpoint_strict_order_witness :
    (2 % 256) &&& 0xf ≠ devDefault.epmax + 1 ∧
    usb_u2_configure_endpoint (some ⟨2, 2, 64⟩) devDefault = (devDefault, []) ∧
    (usb_u2_configure_endpoint (some ⟨0x81, 2, 64⟩) devDefault).1 =
      { devDefault with epmax := devDefault.epmax + 1 } :=
  ⟨by decide,
    (configure_endpoint_strict_order ⟨2, 2, 64⟩ devDefault).1 (by decide),
    (configure_endpoint_strict_order ⟨0x81, 2, 64⟩ devDefault).2 (by decide)⟩

/-- C7 counterexample: the guard of `usb_u2_init` checks
`state != USB_U2_STATE_DEFAULT`, but the body never changes `state`, so
immediately after a first initialization the state is still Default and
a second invocation re-executes every initialization effect — its
effect trace is nonempty, refuting "re-invocation while already
initialized is a no-op". -/
theorem init_second_call_not_noop :
    (usb_u2_init sigId true initState0).1.dstate = DState.default ∧
    (usb_u2_init sigId true ((usb_u2_init sigId true initState0).1)).2 ≠ [] := by
  decide

/-- C7 (amended): `usb_u2_init` is a no-op exactly when the device
state has left Default; since the body leaves the state at Default, a
repeated call re-executes the initialization effects, but the
re-execution reproduces the same final state (the initialization is
idempotent on the state, though not effect-free). -/
theorem init_guard_and_state_idempotent (sig : Nat → Nat) (f : Bool) (s : InitState) :
    (s.dstate ≠ DState.default → usb_u2_init sig f s = (s, [])) ∧
    (usb_u2_init sig f ((usb_u2_init sig f s).1)).1 = (usb_u2_init sig f s).1 := by
  constructor
  · intro h
    simp [usb_u2_init, h]
  · by_cases h : s.dstate = DState.default
    · simp [usb_u2_init, h, Nat.and_assoc, Nat.and_self]
    · simp [usb_u2_init, h]

/-- C7 witness: the guard fires once the state has left Default, and a
double initialization from the pre-init state reaches the same state as
a single one. -/
theorem init_guard_witness :
    initStateAddr.dstate ≠ DState.default ∧
    usb_u2_init sigId true initStateAddr = (initStateAddr, []) ∧
    (usb_u2_init sigId true ((usb_u2_init sigId true initState0).1)).1 =
      (usb_u2_init sigId true initState0).1 :=
  ⟨by decide,
    (init_guard_and_state_idempotent sigId true initStateAddr).1 (by decide),
    (init_guard_and_state_idempotent sigId true initState0).2⟩

/-- C8 counterexample: the internal serial payload holds 20 characters,
not 40 — `usb_u2_init` reads the 10 boot-signature bytes at addresses
`0x0e..0x17` (not a 12-byte identifier) and stores two hex characters
per byte. -/
theorem internal_serial_not_40_chars :
    (serialWords sigId).tail.length = 20 ∧ ¬(serialWords sigId).tail.length = 40 := by
  decide

/-- C8 (amended): a `GET_DESCRIPTOR(STRING)` request whose string index
is the reserved internal-serial index, when the application string
callback returns not-found, resolves to the RAM-resident
(`from_flash = false`) internal serial buffer, whose descriptor header
is `{bLength = 42, bDescriptorType = STRING}` and whose payload is 20
printable lowercase-hexadecimal UTF-16 characters (40 payload bytes)
derived deterministically from the 10 boot-signature bytes at addresses
`0x0e..0x17`. -/
theorem internal_serial_descriptor (sig : Nat → Nat) (env : Env) (d : Dev) (req : Req)
    (hs : d.serial = serialWords sig)
    (ht : req.wValue >>> 8 = USB_U2_DESCR_TYPE_STRING)
    (hidx : req.wValue % 256 = USB_U2_DESCR_STR_IDX_SERIAL_INTERNAL)
    (hcb : env.stringDescr req.wValue req.wIndex = none) :
    resolveDescriptor env d req = some (serialBytes (serialWords sig), 0, false) ∧
    (serialBytes (serialWords sig)).getD 0 0 = 42 ∧
    (serialBytes (serialWords sig)).getD 1 0 = USB_U2_DESCR_TYPE_STRING ∧
    (serialWords sig).tail.length = 20 ∧
    (∀ c ∈ (serialWords sig).tail, isLowerHexChar c) ∧
    (∀ sig2 : Nat → Nat, (∀ a, 0x0e ≤ a → a < 0x18 → sig a = sig2 a) →
      serialWords sig = serialWords sig2) := by
  refine ⟨?_, rfl, rfl, ?_, ?_, ?_⟩
  · have h1 : USB_U2_DESCR_TYPE_STRING ≠ USB_U2_DESCR_TYPE_DEVICE := by decide
    have h2 : USB_U2_DESCR_TYPE_STRING ≠ USB_U2_DESCR_TYPE_CONFIGURATION := by decide
    have h3 : req.wValue % 256 ≠ 0 := by rw [hidx]; decide
    simp only [resolveDescriptor]
    rw [ht, if_neg h1, if_neg h2, if_pos rfl, hcb, if_neg h3, if_pos hidx, hs]
  · rfl
  · intro c hc
    simp only [serialWords, List.tail_cons, List.mem_flatMap, List.mem_range] at hc
    obtain ⟨k, hk, hck⟩ := hc
    have hb : sig (0x0e + k) % 256 ≤ 255 := by omega
    simp only [List.mem_cons, List.mem_singleton, List.not_mem_nil, or_false] at hck
    rcases hck with rfl | rfl
    · apply hexLower_isLowerHex
      rw [Nat.shiftRight_eq_div_pow]
      omega
    · exact hexLower_isLowerHex _ (le_trans Nat.and_le_right (by norm_num))
  · intro sig2 hagree
    simp only [serialWords]
    congr 1
    apply List.flatMap_congr
    intro k hk
    simp only [List.mem_range] at hk
    rw [hagree (0x0e + k) (by omega) (by omega)]

/-- C8 witness: under the `sigId` signature fixture, the resolver hands
back the RAM-resident serial buffer with its 42-byte length header. -/
theorem internal_serial_descriptor_witness :
    devSerial.serial = serialWords sigId ∧
    resolveDescriptor envNone devSerial reqSerial =
      some (serialBytes (serialWords sigId), 0, false) ∧
    (serialBytes (serialWords sigId)).getD 0 0 = 42 :=
  ⟨rfl,
    (internal_serial_descriptor sigId envNone devSerial reqSerial rfl
      (by decide) (by decide) rfl).1,
    (internal_serial_descriptor sigId envNone devSerial reqSerial rfl
      (by decide) (by decide) rfl).2.1⟩

end UsbU2
